import Mathlib

/-!
Verification development for the conversational task-manager router
(`src/presentation/handlers/task_handler.py` and
`src/application/use_cases/task_use_cases.py`).

Strings are modelled as `List Char`.  Python's `str.split(sep)` /
`sep.join(parts)` are modelled by `splitSep` / `joinSep` below; Python's
truthiness of strings and dict-key popping are modelled explicitly where
the handler relies on them.
-/

namespace TaskBot

/-- Python `s.split(sep)` helper: returns the first chunk (up to the first
separator) together with the remaining chunks. -/
def splitSepAux (sep : Char) : List Char → List Char × List (List Char)
  | [] => ([], [])
  | c :: rest =>
    if c = sep then ([], (splitSepAux sep rest).1 :: (splitSepAux sep rest).2)
    else (c :: (splitSepAux sep rest).1, (splitSepAux sep rest).2)

/-- Python `s.split(sep)` for a one-character separator: always returns a
non-empty list of chunks, empty chunks included. -/
def splitSep (sep : Char) (s : List Char) : List (List Char) :=
  (splitSepAux sep s).1 :: (splitSepAux sep s).2

/-- Python `sep.join(parts)` for a one-character separator. -/
def joinSep (sep : Char) : List (List Char) → List Char
  | [] => []
  | [t] => t
  | t :: ts => t ++ sep :: joinSep sep ts

theorem joinSep_cons_cons (sep : Char) (t u : List Char) (ts : List (List Char)) :
    joinSep sep (t :: u :: ts) = t ++ sep :: joinSep sep (u :: ts) := rfl

theorem joinSep_cons_head (sep c : Char) (t : List Char) (ts : List (List Char)) :
    joinSep sep ((c :: t) :: ts) = c :: joinSep sep (t :: ts) := by
  cases ts with
  | nil => rfl
  | cons u us => rfl

theorem joinSep_splitSepAux (sep : Char) (s : List Char) :
    joinSep sep ((splitSepAux sep s).1 :: (splitSepAux sep s).2) = s := by
  induction s with
  | nil => rfl
  | cons c rest ih =>
    by_cases hc : c = sep
    · simp only [splitSepAux, if_pos hc]
      show joinSep sep ([] :: (splitSepAux sep rest).1 :: (splitSepAux sep rest).2)
        = c :: rest
      rw [joinSep_cons_cons, ih, hc]
      rfl
    · simp only [splitSepAux, if_neg hc]
      show joinSep sep ((c :: (splitSepAux sep rest).1) :: (splitSepAux sep rest).2)
        = c :: rest
      rw [joinSep_cons_head, ih]

/-- Joining the chunks of a split returns the original string:
`sep.join(s.split(sep)) == s`. -/
theorem joinSep_splitSep (sep : Char) (s : List Char) :
    joinSep sep (splitSep sep s) = s := by
  unfold splitSep; exact joinSep_splitSepAux sep s

theorem splitSepAux_sepFree (sep : Char) (v s : List Char) (hv : sep ∉ v) :
    splitSepAux sep (v ++ sep :: s)
      = (v, (splitSepAux sep s).1 :: (splitSepAux sep s).2) := by
  induction v with
  | nil =>
    show splitSepAux sep (sep :: s) = _
    simp [splitSepAux]
  | cons c v' ih =>
    have hc : c ≠ sep := fun h => hv (h ▸ List.mem_cons_self c v')
    have hv' : sep ∉ v' := fun h => hv (List.mem_cons_of_mem c h)
    show splitSepAux sep (c :: (v' ++ sep :: s)) = _
    simp only [splitSepAux, if_neg hc]
    rw [ih hv']

/-- Splitting a string of the form `v ++ sep :: s`, where `v` is free of the
separator, yields `v` as the first chunk followed by the chunks of `s`. -/
theorem splitSep_sepFree (sep : Char) (v s : List Char) (hv : sep ∉ v) :
    splitSep sep (v ++ sep :: s) = v :: splitSep sep s := by
  unfold splitSep
  rw [splitSepAux_sepFree sep v s hv]

/-- A prefix test against `w ++ [sep]` on a string `v ++ sep :: s` with both
`w` and `v` separator-free succeeds exactly when `w = v`. -/
theorem isPrefixOf_sep_iff (sep : Char) (w : List Char) :
    ∀ v s : List Char, sep ∉ w → sep ∉ v →
      (List.isPrefixOf (w ++ [sep]) (v ++ sep :: s) = true ↔ w = v) := by
  induction w with
  | nil =>
    intro v s _ hv
    cases v with
    | nil => simp [List.isPrefixOf]
    | cons b v' =>
      have hb : b ≠ sep := fun h => hv (h ▸ List.mem_cons_self b v')
      simp only [List.nil_append, List.cons_append, List.isPrefixOf,
        Bool.and_eq_true, beq_iff_eq]
      constructor
      · intro h
        exact absurd h.1.symm hb
      · intro h; cases h
  | cons a w' ih =>
    intro v s hw hv
    have ha : a ≠ sep := fun h => hw (h ▸ List.mem_cons_self a w')
    have hw' : sep ∉ w' := fun h => hw (List.mem_cons_of_mem a h)
    cases v with
    | nil =>
      simp only [List.cons_append, List.nil_append, List.isPrefixOf,
        Bool.and_eq_true, beq_iff_eq]
      constructor
      · intro h
        exact absurd h.1 ha
      · intro h; cases h
    | cons b v' =>
      have hv' : sep ∉ v' := fun h => hv (List.mem_cons_of_mem b h)
      have hih := ih v' s hw' hv'
      simp only [List.cons_append, List.isPrefixOf, Bool.and_eq_true, beq_iff_eq]
      constructor
      · rintro ⟨rfl, h2⟩
        rw [hih.mp h2]
      · intro h
        injection h with h1 h2
        exact ⟨h1, hih.mpr h2⟩

theorem splitSep_ne_nil (sep : Char) (s : List Char) : splitSep sep s ≠ [] := by
  unfold splitSep; exact List.cons_ne_nil _ _

theorem splitSep_length_pos (sep : Char) (s : List Char) :
    1 ≤ (splitSep sep s).length := by
  unfold splitSep; simp

/-! ## Action Codec

`handle_callback_query` (task_handler.py lines 562-605) classifies the
callback payload: empty payloads are ignored, `lang_`-prefixed payloads take
the legacy registration path, `priority_`-prefixed payloads are split on `_`
and require at least 3 tokens (second token the priority value, the rest
rejoined with `_` as the task id), and every other payload requires at least
2 tokens (first token the verb, the rest rejoined with `_` as the task id).
-/

inductive Decoded where
  | empty
  | lang (code : List Char)
  | priority (value taskId : List Char)
  | priorityMalformed
  | general (verb taskId : List Char)
  | generalMalformed
deriving DecidableEq

def decodeCallback (payload : List Char) : Decoded :=
  if payload = [] then .empty
  else if List.isPrefixOf "lang_".toList payload then
    .lang ((splitSep '_' payload).getD 1 [])
  else if List.isPrefixOf "priority_".toList payload then
    (if 3 ≤ (splitSep '_' payload).length then
      .priority ((splitSep '_' payload).getD 1 [])
        (joinSep '_' ((splitSep '_' payload).drop 2))
    else .priorityMalformed)
  else
    (if (splitSep '_' payload).length < 2 then .generalMalformed
    else .general ((splitSep '_' payload).headD [])
      (joinSep '_' ((splitSep '_' payload).drop 1)))

/-- Decoding a general-form payload `verb_id` recovers `(verb, id)` exactly,
for every id, including ids containing the separator. -/
theorem decode_general (verb id : List Char)
    (hsep : '_' ∉ verb) (hlang : verb ≠ "lang".toList)
    (hpri : verb ≠ "priority".toList) :
    decodeCallback (verb ++ '_' :: id) = .general verb id := by
  have hne : verb ++ '_' :: id ≠ [] := by
    intro h
    exact List.cons_ne_nil _ _ (List.append_eq_nil.mp h).2
  have hlangp : ¬ (List.isPrefixOf "lang_".toList (verb ++ '_' :: id) = true) := by
    intro hb
    exact hlang ((isPrefixOf_sep_iff '_' "lang".toList verb id (by decide) hsep).mp hb).symm
  have hprip : ¬ (List.isPrefixOf "priority_".toList (verb ++ '_' :: id) = true) := by
    intro hb
    exact hpri ((isPrefixOf_sep_iff '_' "priority".toList verb id (by decide) hsep).mp hb).symm
  unfold decodeCallback
  rw [if_neg hne, if_neg hlangp, if_neg hprip,
    splitSep_sepFree '_' verb id hsep]
  have hlen : ¬ (verb :: splitSep '_' id).length < 2 := by
    simp only [List.length_cons, not_lt]
    have := splitSep_length_pos '_' id
    omega
  rw [if_neg hlen]
  simp only [List.headD_cons, List.drop_succ_cons, List.drop_zero]
  rw [joinSep_splitSep]

/-- Decoding a priority payload `priority_<value>_<id>` with a
separator-free value recovers `(value, id)` exactly. -/
theorem decode_priority (value id : List Char) (hsep : '_' ∉ value) :
    decodeCallback ("priority_".toList ++ value ++ '_' :: id)
      = .priority value id := by
  have hshape : "priority_".toList ++ value ++ '_' :: id
      = "priority".toList ++ '_' :: (value ++ '_' :: id) := by
    simp
  have hne : "priority_".toList ++ value ++ '_' :: id ≠ [] := by
    rw [hshape]
    intro h
    exact List.cons_ne_nil _ _ (List.append_eq_nil.mp h).2
  have hlangp : ¬ (List.isPrefixOf "lang_".toList
      ("priority_".toList ++ value ++ '_' :: id) = true) := by
    rw [hshape]
    intro hb
    have := (isPrefixOf_sep_iff '_' "lang".toList "priority".toList
      (value ++ '_' :: id) (by decide) (by decide)).mp hb
    exact absurd this (by decide)
  have hprip : List.isPrefixOf "priority_".toList
      ("priority_".toList ++ value ++ '_' :: id) = true := by
    rw [hshape]
    exact (isPrefixOf_sep_iff '_' "priority".toList "priority".toList
      (value ++ '_' :: id) (by decide) (by decide)).mpr rfl
  have hsplit : splitSep '_' ("priority_".toList ++ value ++ '_' :: id)
      = "priority".toList :: value :: splitSep '_' id := by
    rw [hshape, splitSep_sepFree '_' "priority".toList _ (by decide),
      splitSep_sepFree '_' value id hsep]
  unfold decodeCallback
  rw [if_neg hne, if_neg hlangp, if_pos hprip, hsplit]
  have hlen : 3 ≤ ("priority".toList :: value :: splitSep '_' id).length := by
    simp only [List.length_cons]
    have := splitSep_length_pos '_' id
    omega
  rw [if_pos hlen]
  simp only [List.getD_cons_succ, List.getD_cons_zero, List.drop_succ_cons,
    List.drop_zero]
  rw [joinSep_splitSep]

theorem priority_toList :
    "priority_".toList = ['p', 'r', 'i', 'o', 'r', 'i', 't', 'y', '_'] := rfl

/-- A payload starting with the priority prefix but holding fewer than 3
separator-delimited tokens decodes as malformed. -/
theorem decode_priority_malformed (payload : List Char)
    (hpfx : List.isPrefixOf "priority_".toList payload = true)
    (hlen : (splitSep '_' payload).length < 3) :
    decodeCallback payload = .priorityMalformed := by
  cases payload with
  | nil => exact absurd hpfx (by decide)
  | cons c t =>
    have hc : 'p' = c ∧ List.isPrefixOf "riority_".toList t = true := by
      have h := hpfx
      rw [priority_toList] at h
      simp only [List.isPrefixOf, Bool.and_eq_true, beq_iff_eq] at h
      exact ⟨h.1, by
        have h2 := h.2
        simpa [List.isPrefixOf] using h2⟩
    obtain ⟨rfl, -⟩ := hc
    have hlangp : List.isPrefixOf "lang_".toList ('p' :: t) = false := by
      simp [List.isPrefixOf]
    unfold decodeCallback
    rw [if_neg (List.cons_ne_nil 'p' t), if_neg (by simp [hlangp]),
      if_pos hpfx, if_neg (by omega)]

/-- A payload that is non-empty, not `lang_`- or `priority_`-prefixed, and
holds fewer than 2 separator-delimited tokens decodes as malformed. -/
theorem decode_general_malformed (payload : List Char)
    (hne : payload ≠ [])
    (hlang : List.isPrefixOf "lang_".toList payload = false)
    (hpri : List.isPrefixOf "priority_".toList payload = false)
    (hlen : (splitSep '_' payload).length < 2) :
    decodeCallback payload = .generalMalformed := by
  unfold decodeCallback
  rw [if_neg hne, if_neg (by simp only [hlang]; simp),
    if_neg (by simp only [hpri]; simp), if_pos hlen]

/-! ## Datetime model

A naive `datetime.datetime` value: seven numeric fields, no timezone.
Calendar arithmetic (`timedelta(days=n)`) is day-by-day rollover with
Gregorian month lengths, matching Python's proleptic Gregorian calendar.
Years are unbounded here, abstracting Python's 1..9999 range (constructor
validity does include the Python year bounds).
-/

structure DateTime where
  year : Nat
  month : Nat
  day : Nat
  hour : Nat
  minute : Nat
  second : Nat
  microsecond : Nat
deriving DecidableEq

def isLeapYear (y : Nat) : Bool :=
  y % 4 = 0 && (y % 100 != 0 || y % 400 = 0)

def daysInMonth (y m : Nat) : Nat :=
  if m = 2 then (if isLeapYear y then 29 else 28)
  else if m = 4 ∨ m = 6 ∨ m = 9 ∨ m = 11 then 30
  else 31

/-- Python `datetime(year, month, day, hour, minute)` argument validation:
out-of-range values raise `ValueError`. -/
def validDateTime (y mo d h mi : Nat) : Bool :=
  1 ≤ y && y ≤ 9999 && 1 ≤ mo && mo ≤ 12 && 1 ≤ d && d ≤ daysInMonth y mo
    && h ≤ 23 && mi ≤ 59

/-- One calendar day forward, rolling over month and year boundaries; the
time-of-day fields are untouched. -/
def nextDay (dt : DateTime) : DateTime :=
  if dt.day < daysInMonth dt.year dt.month then { dt with day := dt.day + 1 }
  else if dt.month < 12 then { dt with month := dt.month + 1, day := 1 }
  else { dt with year := dt.year + 1, month := 1, day := 1 }

/-- Python `dt + timedelta(days=n)` for `n ≥ 0`. -/
def addDays : Nat → DateTime → DateTime
  | 0, dt => dt
  | n + 1, dt => nextDay (addDays n dt)

theorem nextDay_time (dt : DateTime) :
    (nextDay dt).hour = dt.hour ∧ (nextDay dt).minute = dt.minute
      ∧ (nextDay dt).second = dt.second
      ∧ (nextDay dt).microsecond = dt.microsecond := by
  unfold nextDay
  split
  · exact ⟨rfl, rfl, rfl, rfl⟩
  · split
    · exact ⟨rfl, rfl, rfl, rfl⟩
    · exact ⟨rfl, rfl, rfl, rfl⟩

/-- Adding days preserves the time-of-day fields. -/
theorem addDays_time (n : Nat) (dt : DateTime) :
    (addDays n dt).hour = dt.hour ∧ (addDays n dt).minute = dt.minute
      ∧ (addDays n dt).second = dt.second
      ∧ (addDays n dt).microsecond = dt.microsecond := by
  induction n with
  | zero => exact ⟨rfl, rfl, rfl, rfl⟩
  | succ n ih =>
    have h := nextDay_time (addDays n dt)
    exact ⟨h.1.trans ih.1, h.2.1.trans ih.2.1, h.2.2.1.trans ih.2.2.1,
      h.2.2.2.trans ih.2.2.2⟩

/-- Python `datetime` comparison: lexicographic over the seven fields. -/
def dtLe (a b : DateTime) : Bool :=
  if a.year ≠ b.year then decide (a.year < b.year)
  else if a.month ≠ b.month then decide (a.month < b.month)
  else if a.day ≠ b.day then decide (a.day < b.day)
  else if a.hour ≠ b.hour then decide (a.hour < b.hour)
  else if a.minute ≠ b.minute then decide (a.minute < b.minute)
  else if a.second ≠ b.second then decide (a.second < b.second)
  else decide (a.microsecond ≤ b.microsecond)

/-! ## Deadline Expression Parser

`_parse_deadline` (task_handler.py lines 1149-1191).  The five regex
branches are tried in order; `re.match` anchors at the start of the string
only, so each matcher ignores trailing input.  The absolute branch wraps its
`datetime(...)` construction in `try/except ValueError: pass` and falls
through to the later branches; the `today`/`tomorrow` branches call
`now.replace(hour=h, minute=m, ...)` unguarded, so an out-of-range hour or
minute there raises `ValueError` out of the function — modelled by the
`fault` outcome.
-/

def pyIsSpace (c : Char) : Bool :=
  c = ' ' || c = '\t' || c = '\n' || c = '\r' || c = '\x0b' || c = '\x0c'

/-- Python `s.strip()` (ASCII whitespace). -/
def pyStrip (s : List Char) : List Char :=
  ((s.dropWhile pyIsSpace).reverse.dropWhile pyIsSpace).reverse

/-- Python `s.lower()` (ASCII case folding suffices for the router's
inputs). -/
def pyLower (s : List Char) : List Char :=
  s.map Char.toLower

def digitVal (c : Char) : Nat := c.toNat - '0'.toNat

/-- Regex fragment `(\d{2})`: exactly two digit characters. -/
def takeDigits2 : List Char → Option (Nat × List Char)
  | a :: b :: rest =>
    if a.isDigit && b.isDigit then some (10 * digitVal a + digitVal b, rest)
    else none
  | _ => none

/-- Regex fragment `(\d{4})`: exactly four digit characters. -/
def takeDigits4 : List Char → Option (Nat × List Char)
  | a :: b :: c :: d :: rest =>
    if a.isDigit && b.isDigit && c.isDigit && d.isDigit then
      some (1000 * digitVal a + 100 * digitVal b + 10 * digitVal c
        + digitVal d, rest)
    else none
  | _ => none

def expectChar (c : Char) : List Char → Option (List Char)
  | x :: rest => if x = c then some rest else none
  | [] => none

/-- Regex fragment `\s+` followed by a token that cannot be whitespace:
maximal munch is the unique match. -/
def takeWs1 : List Char → Option (List Char)
  | c :: rest => if pyIsSpace c then some (rest.dropWhile pyIsSpace) else none
  | [] => none

def natOfDigits (ds : List Char) : Nat :=
  ds.foldl (fun n c => 10 * n + digitVal c) 0

/-- Regex fragment `(\d+)` followed by a non-digit: maximal munch. -/
def takeDigits1 (s : List Char) : Option (Nat × List Char) :=
  if s.takeWhile Char.isDigit = [] then none
  else some (natOfDigits (s.takeWhile Char.isDigit), s.dropWhile Char.isDigit)

/-- Regex `(\d{2})\.(\d{2})\.(\d{4})\s+(\d{2}):(\d{2})` anchored at the
start, trailing input ignored; yields (day, month, year, hour, minute). -/
def matchAbsolute (s : List Char) : Option (Nat × Nat × Nat × Nat × Nat) := do
  let (d, s) ← takeDigits2 s
  let s ← expectChar '.' s
  let (mo, s) ← takeDigits2 s
  let s ← expectChar '.' s
  let (y, s) ← takeDigits4 s
  let s ← takeWs1 s
  let (h, s) ← takeDigits2 s
  let s ← expectChar ':' s
  let (mi, _) ← takeDigits2 s
  pure (d, mo, y, h, mi)

/-- Regex `<kw>\s+(\d{2}):(\d{2})` anchored at the start (used with
`today` and `tomorrow`). -/
def matchKwHM (kw s : List Char) : Option (Nat × Nat) := do
  let s ← if List.isPrefixOf kw s then some (s.drop kw.length) else none
  let s ← takeWs1 s
  let (h, s) ← takeDigits2 s
  let s ← expectChar ':' s
  let (m, _) ← takeDigits2 s
  pure (h, m)

/-- Regex `(\d+)\s*<unit>s?` anchored at the start; since the pattern ends
after the optional `s`, acceptance only needs `<unit>` to follow. -/
def matchCount (unit s : List Char) : Option Nat := do
  let (n, s) ← takeDigits1 s
  if List.isPrefixOf unit (s.dropWhile pyIsSpace) then pure n else none

inductive ParseOutcome where
  | parsed (dt : DateTime)
  | unparseable
  | fault
deriving DecidableEq

/-- Branches 2-5 of `_parse_deadline`, reached either when the absolute
regex does not match or when its `datetime(...)` raised and was
suppressed. -/
def parseRelative (text : List Char) (now : DateTime) : ParseOutcome :=
  match matchKwHM "today".toList text with
  | some (h, m) =>
    if h ≤ 23 && m ≤ 59 then
      .parsed { now with hour := h, minute := m, second := 0, microsecond := 0 }
    else .fault
  | none =>
  match matchKwHM "tomorrow".toList text with
  | some (h, m) =>
    if h ≤ 23 && m ≤ 59 then
      .parsed { addDays 1 now with
        hour := h, minute := m, second := 0, microsecond := 0 }
    else .fault
  | none =>
  match matchCount "day".toList text with
  | some n => .parsed (addDays n now)
  | none =>
  match matchCount "week".toList text with
  | some n => .parsed (addDays (7 * n) now)
  | none => .unparseable

/-- `_parse_deadline(text)` with the internal `datetime.utcnow()` made an
explicit `now` parameter. -/
def parseDeadline (input : List Char) (now : DateTime) : ParseOutcome :=
  match matchAbsolute (pyStrip (pyLower input)) with
  | some (d, mo, y, h, mi) =>
    if validDateTime y mo d h mi then .parsed ⟨y, mo, d, h, mi, 0, 0⟩
    else parseRelative (pyStrip (pyLower input)) now
  | none => parseRelative (pyStrip (pyLower input)) now

/-! ## Data model

The `Task` entity fields the router reads or writes
(`src/core/entities/task.py`); metadata, dependency and timestamp fields
are never touched by the handler paths modelled here and are omitted.
-/

inductive Priority where
  | low | medium | high | urgent
deriving DecidableEq

inductive TType where
  | assignment | meeting | reminder | project
deriving DecidableEq

inductive TStatus where
  | todo | inProgress | completed | cancelled
deriving DecidableEq

structure Task where
  id : List Char
  userId : List Char
  title : List Char
  description : List Char
  type : TType
  status : TStatus
  priority : Priority
  deadline : Option DateTime
  tags : List (List Char)
deriving DecidableEq

/-- The task store, modelled as the ordered collection of task documents.
`get_by_id` is a first-match lookup, `update` replaces the first document
with a matching id (`update_one`), `delete` removes the first matching
document (`delete_one`). -/
def getById (store : List Task) (id : List Char) : Option Task :=
  store.find? (fun t => t.id == id)

def updateTask : List Task → Task → List Task
  | [], _ => []
  | u :: rest, t => if u.id == t.id then t :: rest else u :: updateTask rest t

def deleteTask (store : List Task) (id : List Char) : List Task :=
  store.eraseP (fun t => t.id == id)

/-- The two `context.user_data` keys the router uses: `pending_action` and
`task_id`.  An absent key is `none`. -/
structure UserData where
  pendingAction : Option (List Char)
  taskId : Option (List Char)
deriving DecidableEq

/-- A button handler's recording of a task-scoped follow-up:
`user_data['pending_action'] = kind; user_data['task_id'] = task.id`.
Both keys are assigned, so the result is independent of the previous state
(last-writer-wins). -/
def setPendingTask (_ud : UserData) (kind id : List Char) : UserData :=
  ⟨some kind, some id⟩

/-- Outbound replies / message edits, abstracted to their kind. -/
inductive ReplyKind where
  | langWelcome
  | registerFirst
  | taskNotFound
  | unknownAction
  | prioritySet (p : Priority)
  | promptDeadline
  | promptTags
  | promptDescription
  | priorityKeyboard
  | deleteConfirm
  | taskDeleted
  | deleteFailed
  | editOptions
  | promptEditTitle
  | promptEditDeadline
  | promptEditTags
  | promptEditDescription
  | editCancelled
  | invalidDeadlineFormat
  | deadlineSet (dt : DateTime)
  | deadlineUpdated (dt : DateTime)
  | noValidTags
  | tagsAdded
  | tagsUpdated
  | descriptionAdded
  | descriptionUpdated
  | titleUpdated
  | taskCreated
  | promptNewTaskTitle
  | promptSearch
  | searchResults
  | commandReply
  | genericError
deriving DecidableEq

/-- Result of handling one inbound event: the task store, the per-user
state, and the replies produced. -/
structure StepResult where
  store : List Task
  userData : UserData
  replies : List ReplyKind
deriving DecidableEq

/-! ## Interaction Router: button presses

`handle_callback_query` (task_handler.py lines 559-651) and the immediate
processors `_process_set_priority` (658-689) and `_process_delete_task`
(808-830).  Note that the priority branch runs before any user lookup and
that no branch compares the task's owner with the sender, so the model
carries only a `userExists` flag for `_get_user_from_update`. -/

def priorityOfValue (v : List Char) : Priority :=
  if v = "urgent".toList then .urgent
  else if v = "high".toList then .high
  else if v = "medium".toList then .medium
  else if v = "low".toList then .low
  else .medium

/-- Dispatch of a recognized general-form verb on a loaded task
(task_handler.py lines 623-651). -/
def dispatchAction (store : List Task) (ud : UserData) (task : Task)
    (action : List Char) : StepResult :=
  if action = "setdeadline".toList then
    ⟨store, setPendingTask ud "set_deadline".toList task.id, [.promptDeadline]⟩
  else if action = "addtags".toList then
    ⟨store, setPendingTask ud "add_tags".toList task.id, [.promptTags]⟩
  else if action = "adddescription".toList then
    ⟨store, setPendingTask ud "add_description".toList task.id,
      [.promptDescription]⟩
  else if action = "setpriority".toList then ⟨store, ud, [.priorityKeyboard]⟩
  else if action = "delete".toList then ⟨store, ud, [.deleteConfirm]⟩
  else if action = "confirmdelete".toList then
    (if store.any (fun u => u.id == task.id) then
      ⟨deleteTask store task.id, ud, [.taskDeleted]⟩
    else ⟨store, ud, [.deleteFailed]⟩)
  else if action = "editselect".toList then ⟨store, ud, [.editOptions]⟩
  else if action = "edittitle".toList then
    ⟨store, setPendingTask ud "edit_title".toList task.id, [.promptEditTitle]⟩
  else if action = "editdeadline".toList then
    ⟨store, setPendingTask ud "edit_deadline".toList task.id,
      [.promptEditDeadline]⟩
  else if action = "edittags".toList then
    ⟨store, setPendingTask ud "edit_tags".toList task.id, [.promptEditTags]⟩
  else if action = "editdesc".toList then
    ⟨store, setPendingTask ud "edit_description".toList task.id,
      [.promptEditDescription]⟩
  else if action = "editpriority".toList then ⟨store, ud, [.priorityKeyboard]⟩
  else if action = "editcancel".toList then ⟨store, ud, [.editCancelled]⟩
  else ⟨store, ud, [.unknownAction]⟩

def handleCallback (store : List Task) (ud : UserData) (userExists : Bool)
    (payload : List Char) : StepResult :=
  match decodeCallback payload with
  | .empty => ⟨store, ud, []⟩
  | .lang _ => ⟨store, ud, [.langWelcome]⟩
  | .priorityMalformed => ⟨store, ud, []⟩
  | .priority value tid =>
    (match getById store tid with
    | some task =>
      ⟨updateTask store { task with priority := priorityOfValue value }, ud,
        [.prioritySet (priorityOfValue value)]⟩
    | none => ⟨store, ud, [.taskNotFound]⟩)
  | .generalMalformed => ⟨store, ud, []⟩
  | .general verb tid =>
    if userExists = false then ⟨store, ud, [.registerFirst]⟩
    else
      match getById store tid with
      | none => ⟨store, ud, [.taskNotFound]⟩
      | some task => dispatchAction store ud task verb

/-! ## Create-task use case

`CreateTaskUseCase.execute` / `_validate_task`
(task_use_cases.py lines 34-86).  `Task.__post_init__` raises on a
literally-empty title before validation runs; `_validate_task` then checks
the stripped title, the deadline, and the 200-character bound, in that
order, each raising `ValueError`.  Any raise occurs before
`task_repository.create`, so the store is unchanged on error. -/

inductive CreateError where
  | emptyTitle
  | deadlinePast
  | titleTooLong
deriving DecidableEq

def createTaskUC (uid title : List Char) (deadline : Option DateTime)
    (now : DateTime) (freshId : List Char) : Except CreateError Task :=
  if title = [] then .error .emptyTitle
  else if pyStrip title = [] then .error .emptyTitle
  else if (match deadline with
           | some d => dtLe d now
           | none => false) then .error .deadlinePast
  else if 200 < title.length then .error .titleTooLong
  else .ok ⟨freshId, uid, title, [], .assignment, .todo, .medium, deadline, []⟩

/-- The use case at the store level: on success the repository assigns
`freshId` and the document is inserted; on a validation error the store is
untouched. -/
def createTaskExec (store : List Task) (uid title : List Char)
    (deadline : Option DateTime) (now : DateTime) (freshId : List Char) :
    List Task × Option CreateError :=
  match createTaskUC uid title deadline now freshId with
  | .error e => (store, some e)
  | .ok t => (store ++ [t], none)

/-! ## Interaction Router: free-text messages

`handle_message` (task_handler.py lines 928-997) and the `_process_*`
flow processors (1002-1147).  Tag tokenization mirrors
`[tag.strip().strip(',') for tag in text.replace(',', ' ').split() if tag.strip()]`.
-/

/-- Python `s.split()` with no argument: split on whitespace runs,
dropping empty chunks. -/
def pySplitWs (s : List Char) : List (List Char) :=
  ((splitSepAux ' ' (s.map (fun c => if pyIsSpace c then ' ' else c))).1
    :: (splitSepAux ' ' (s.map (fun c => if pyIsSpace c then ' ' else c))).2).filter
    (fun t => t ≠ [])

/-- Python `s.strip(',')`. -/
def stripCommas (s : List Char) : List Char :=
  ((s.dropWhile (fun c => c = ',')).reverse.dropWhile (fun c => c = ',')).reverse

def tokenizeTags (text : List Char) : List (List Char) :=
  ((pySplitWs (text.map (fun c => if c = ',' then ' ' else c))).filter
    (fun t => pyStrip t ≠ [])).map (fun t => stripCommas (pyStrip t))

/-- The seven task-scoped `_process_*` dispatch branches of
`handle_message` (lines 980-993); returns the new store and the replies.
Each processor has its own catch-all, so no exception escapes; an
unrecognized kind falls through the `elif` chain doing nothing. -/
def processPending (store : List Task) (task : Task) (pa text : List Char)
    (now : DateTime) : List Task × List ReplyKind :=
  if pa = "set_deadline".toList then
    match parseDeadline text now with
    | .parsed dt =>
      (updateTask store { task with deadline := some dt }, [.deadlineSet dt])
    | .unparseable => (store, [.invalidDeadlineFormat])
    | .fault => (store, [.genericError])
  else if pa = "add_tags".toList then
    (if tokenizeTags text = [] then (store, [.noValidTags])
    else (updateTask store { task with tags := task.tags ++ tokenizeTags text },
      [.tagsAdded]))
  else if pa = "add_description".toList then
    (updateTask store { task with description := text }, [.descriptionAdded])
  else if pa = "edit_title".toList then
    (updateTask store { task with title := text }, [.titleUpdated])
  else if pa = "edit_deadline".toList then
    (match parseDeadline text now with
    | .parsed dt =>
      (updateTask store { task with deadline := some dt }, [.deadlineUpdated dt])
    | .unparseable => (store, [.invalidDeadlineFormat])
    | .fault => (store, [.genericError]))
  else if pa = "edit_tags".toList then
    (if tokenizeTags text = [] then (store, [.noValidTags])
    else (updateTask store { task with tags := tokenizeTags text },
      [.tagsUpdated]))
  else if pa = "edit_description".toList then
    (updateTask store { task with description := text }, [.descriptionUpdated])
  else (store, [])

/-- `handle_add_task_command` (lines 198-220): an inline title after
`/add_task` creates the task at once (a validation raise is caught there
and answered with a generic error reply); otherwise the pending action
`new_task_title` is recorded and a title prompt sent. -/
def splitFirstSpace : List Char → Option (List Char × List Char)
  | [] => none
  | c :: rest =>
    if c = ' ' then some ([], rest)
    else
      match splitFirstSpace rest with
      | some (a, b) => some (c :: a, b)
      | none => none

def handleAddTask (store : List Task) (ud : UserData) (text : List Char)
    (now : DateTime) (freshId uid : List Char) : StepResult :=
  match (if List.isPrefixOf "/add_task".toList (pyStrip text) then
      splitFirstSpace (pyStrip text) else none) with
  | some (_, after) =>
    if pyStrip after ≠ [] then
      match createTaskExec store uid (pyStrip after) none now freshId with
      | (store1, none) => ⟨store1, ud, [.taskCreated]⟩
      | (store1, some _) => ⟨store1, ud, [.genericError]⟩
    else ⟨store, { ud with pendingAction := some "new_task_title".toList },
      [.promptNewTaskTitle]⟩
  | none => ⟨store, { ud with pendingAction := some "new_task_title".toList },
      [.promptNewTaskTitle]⟩

def keyboardButtons : List (List Char) :=
  ["📋 Tasks".toList, "➕ Add Task".toList, "📅 Deadlines".toList,
   "🔍 Search".toList, "❓ Help".toList]

def isKeyboardButton (s : List Char) : Bool := keyboardButtons.contains s

/-- The persistent-keyboard routes at the top of `handle_message`
(lines 933-944).  `❓ Help` replies without a user lookup; the other four
commands reply `registerFirst` for an unknown sender; `➕ Add Task` and
`🔍 Search` record their pending actions; `📋 Tasks` and `📅 Deadlines`
only reply. -/
def keyboardRoute (store : List Task) (ud : UserData) (userExists : Bool)
    (btn : List Char) (now : DateTime) (freshId uid : List Char) : StepResult :=
  if btn = "❓ Help".toList then ⟨store, ud, [.commandReply]⟩
  else if userExists = false then ⟨store, ud, [.registerFirst]⟩
  else if btn = "➕ Add Task".toList then handleAddTask store ud btn now freshId uid
  else if btn = "🔍 Search".toList then
    ⟨store, { ud with pendingAction := some "search_keyword".toList },
      [.promptSearch]⟩
  else ⟨store, ud, [.commandReply]⟩

/-- `handle_message` (lines 928-997).  `freshId` stands for the id the
repository would assign to a task created by the `new_task_title` flow.
Note the code's key points: the raw (unstripped) text is re-read at line
978 for the task-scoped flows; a `task not found` lookup returns *before*
the pops at lines 996-997, leaving the pending action in place; after any
task-scoped processing, parse failures included, both keys are popped. -/
def handleMessage (store : List Task) (ud : UserData) (userExists : Bool)
    (text : List Char) (now : DateTime) (freshId uid : List Char) : StepResult :=
  match isKeyboardButton (pyStrip text) with
  | true => keyboardRoute store ud userExists (pyStrip text) now freshId uid
  | false =>
  match userExists with
  | false => ⟨store, ud, [.registerFirst]⟩
  | true =>
    match ud.pendingAction with
    | none => ⟨store, ud, []⟩
    | some pa =>
      if pa = [] then ⟨store, ud, []⟩
      else if pa = "new_task_title".toList then
        (match createTaskExec store uid (pyStrip text) none now freshId with
        | (store1, none) => ⟨store1, ⟨none, ud.taskId⟩, [.taskCreated]⟩
        | (store1, some _) => ⟨store1, ⟨none, ud.taskId⟩, []⟩)
      else if pa = "search_keyword".toList then
        ⟨store, ⟨none, ud.taskId⟩, [.searchResults]⟩
      else
        match ud.taskId with
        | none => ⟨store, ud, []⟩
        | some tid =>
          if tid = [] then ⟨store, ud, []⟩
          else
            match getById store tid with
            | none => ⟨store, ud, [.taskNotFound]⟩
            | some task =>
              ⟨(processPending store task pa text now).1, ⟨none, none⟩,
                (processPending store task pa text now).2⟩

/-! ## Router lemmas -/

/-- The seven task-scoped pending-action kinds the button handlers record. -/
def taskKinds : List (List Char) :=
  ["set_deadline".toList, "add_tags".toList, "add_description".toList,
   "edit_title".toList, "edit_deadline".toList, "edit_tags".toList,
   "edit_description".toList]

theorem taskKinds_ne (k : List Char) (hk : k ∈ taskKinds) :
    k ≠ [] ∧ k ≠ "new_task_title".toList ∧ k ≠ "search_keyword".toList := by
  fin_cases hk <;> exact ⟨by decide, by decide, by decide⟩

/-- Evaluation of `handle_message` for a registered user holding a
task-scoped pending action whose target task loads: the kind-specific
processing runs on the raw text and both `user_data` keys are popped. -/
theorem handleMessage_taskKind (store : List Task) (k i : List Char)
    (task : Task) (text : List Char) (now : DateTime) (fid uid : List Char)
    (hk : k ∈ taskKinds) (hi : i ≠ [])
    (hget : getById store i = some task)
    (hbtn : isKeyboardButton (pyStrip text) = false) :
    handleMessage store ⟨some k, some i⟩ true text now fid uid
      = ⟨(processPending store task k text now).1, ⟨none, none⟩,
          (processPending store task k text now).2⟩ := by
  obtain ⟨hk0, hk1, hk2⟩ := taskKinds_ne k hk
  unfold handleMessage
  rw [hbtn]
  dsimp only
  rw [if_neg hk0, if_neg hk1, if_neg hk2, if_neg hi, hget]

/-- Evaluation of `handle_message` for a registered user holding a
task-scoped pending action whose target task does NOT load: the handler
replies and returns before the pops, so the pending action survives. -/
theorem handleMessage_taskKind_notFound (store : List Task) (k i : List Char)
    (text : List Char) (now : DateTime) (fid uid : List Char)
    (hk : k ∈ taskKinds) (hi : i ≠ [])
    (hget : getById store i = none)
    (hbtn : isKeyboardButton (pyStrip text) = false) :
    handleMessage store ⟨some k, some i⟩ true text now fid uid
      = ⟨store, ⟨some k, some i⟩, [.taskNotFound]⟩ := by
  obtain ⟨hk0, hk1, hk2⟩ := taskKinds_ne k hk
  unfold handleMessage
  rw [hbtn]
  dsimp only
  rw [if_neg hk0, if_neg hk1, if_neg hk2, if_neg hi, hget]

/-- Evaluation of `handle_message` for a registered user with no pending
action: nothing happens. -/
theorem handleMessage_noPending (store : List Task) (text : List Char)
    (now : DateTime) (fid uid : List Char)
    (hbtn : isKeyboardButton (pyStrip text) = false) :
    handleMessage store ⟨none, none⟩ true text now fid uid
      = ⟨store, ⟨none, none⟩, []⟩ := by
  unfold handleMessage
  rw [hbtn]

/-- The four priority sub-values offered on the priority keyboards. -/
def priorityValues : List (List Char) :=
  ["urgent".toList, "high".toList, "medium".toList, "low".toList]

/-- Evaluation of `handle_callback_query` on a priority payload whose task
loads: the task's priority is set and one reply produced, with no user
lookup and no touch of the per-user state. -/
theorem handleCallback_priority (store : List Task) (ud : UserData)
    (ue : Bool) (value tid : List Char) (task : Task)
    (hsep : '_' ∉ value) (hget : getById store tid = some task) :
    handleCallback store ud ue ("priority_".toList ++ value ++ '_' :: tid)
      = ⟨updateTask store { task with priority := priorityOfValue value }, ud,
          [.prioritySet (priorityOfValue value)]⟩ := by
  unfold handleCallback
  rw [decode_priority value tid hsep]
  dsimp only
  rw [hget]

/-! ## The claims -/

/-- C1: for every general-form (non-priority, non-lang) verb and every task
identity string id, including identities containing the separator `_`,
decoding the payload built by joining verb and id with `_` yields exactly
(verb, id): the first token is the verb and all remaining tokens are
rejoined with `_`, reconstructing the identity losslessly. -/
theorem C1_general_decode_lossless (verb id : List Char)
    (hsep : '_' ∉ verb) (hlang : verb ≠ "lang".toList)
    (hpri : verb ≠ "priority".toList) :
    decodeCallback (verb ++ '_' :: id) = .general verb id :=
  decode_general verb id hsep hlang hpri

theorem C1_general_decode_lossless_witness :
    decodeCallback ("confirmdelete".toList ++ '_' :: "abc_12".toList)
      = .general "confirmdelete".toList "abc_12".toList :=
  C1_general_decode_lossless "confirmdelete".toList "abc_12".toList
    (by decide) (by decide) (by decide)

/-- C2: decoding `priority_<p>_<id>` for the four priority sub-values
yields (priority, p, id) with the identity rejoined from all tokens after
the second; a priority-form payload with fewer than 3 tokens, or a general
payload with fewer than 2, is rejected as malformed and the handler
performs no mutation. -/
theorem C2_priority_decode_and_malformed :
    (∀ value id : List Char, value ∈ priorityValues →
      decodeCallback ("priority_".toList ++ value ++ '_' :: id)
        = .priority value id)
    ∧ (∀ (payload : List Char) (store : List Task) (ud : UserData) (ue : Bool),
        List.isPrefixOf "priority_".toList payload = true →
        (splitSep '_' payload).length < 3 →
        decodeCallback payload = .priorityMalformed
          ∧ handleCallback store ud ue payload = ⟨store, ud, []⟩)
    ∧ (∀ (payload : List Char) (store : List Task) (ud : UserData) (ue : Bool),
        payload ≠ [] →
        List.isPrefixOf "lang_".toList payload = false →
        List.isPrefixOf "priority_".toList payload = false →
        (splitSep '_' payload).length < 2 →
        decodeCallback payload = .generalMalformed
          ∧ handleCallback store ud ue payload = ⟨store, ud, []⟩) := by
  refine ⟨?_, ?_, ?_⟩
  · intro value id hv
    fin_cases hv <;> exact decode_priority _ id (by decide)
  · intro payload store ud ue hpfx hlen
    have hd := decode_priority_malformed payload hpfx hlen
    exact ⟨hd, by unfold handleCallback; rw [hd]⟩
  · intro payload store ud ue hne hlang hpri hlen
    have hd := decode_general_malformed payload hne hlang hpri hlen
    exact ⟨hd, by unfold handleCallback; rw [hd]⟩

theorem C2_priority_decode_and_malformed_witness :
    decodeCallback ("priority_".toList ++ "high".toList ++ '_' :: "a_b".toList)
      = .priority "high".toList "a_b".toList
    ∧ (decodeCallback "priority_x".toList = .priorityMalformed
        ∧ handleCallback [] ⟨none, none⟩ true "priority_x".toList
            = ⟨[], ⟨none, none⟩, []⟩)
    ∧ (decodeCallback "nounderscore".toList = .generalMalformed
        ∧ handleCallback [] ⟨none, none⟩ true "nounderscore".toList
            = ⟨[], ⟨none, none⟩, []⟩) :=
  ⟨C2_priority_decode_and_malformed.1 "high".toList "a_b".toList (by decide),
   C2_priority_decode_and_malformed.2.1 "priority_x".toList [] ⟨none, none⟩
     true (by decide) (by decide),
   C2_priority_decode_and_malformed.2.2 "nounderscore".toList [] ⟨none, none⟩
     true (by decide) (by decide) (by decide) (by decide)⟩

/-- C3: the deadline parser, on the spec's example expressions and for
every reference time `now`: the absolute format gives the exact date-time,
`today HH:MM` keeps now's calendar day with seconds (and microseconds)
zeroed, `tomorrow HH:MM` is now's date plus one day, `N days` / `N weeks`
shift now by whole days preserving the time-of-day, matching is
case-insensitive with surrounding whitespace trimmed, and unmatched text is
unparseable. -/
theorem C3_deadline_parser_grammars (now : DateTime) :
    parseDeadline "15.02.2026 14:30".toList now
        = .parsed ⟨2026, 2, 15, 14, 30, 0, 0⟩
    ∧ parseDeadline "32.01.2026 10:00".toList now = .unparseable
    ∧ parseDeadline "today 18:00".toList now
        = .parsed ({ now with hour := 18, minute := 0, second := 0, microsecond := 0 })
    ∧ parseDeadline "tomorrow 12:00".toList now
        = .parsed ({ addDays 1 now with hour := 12, minute := 0, second := 0, microsecond := 0 })
    ∧ parseDeadline "3 days".toList now = .parsed (addDays 3 now)
    ∧ ((addDays 3 now).hour = now.hour ∧ (addDays 3 now).minute = now.minute
        ∧ (addDays 3 now).second = now.second
        ∧ (addDays 3 now).microsecond = now.microsecond)
    ∧ parseDeadline "2 weeks".toList now = .parsed (addDays 14 now)
    ∧ parseDeadline "garbage".toList now = .unparseable
    ∧ parseDeadline "  TOMORROW 12:00 ".toList now
        = .parsed ({ addDays 1 now with hour := 12, minute := 0, second := 0, microsecond := 0 }) :=
  ⟨rfl, rfl, rfl, rfl, rfl, addDays_time 3 now, rfl, rfl, rfl⟩

/-- C4: the code evaluated at the failing input.  `today 25:00` matches the
`today HH:MM` regex and then `now.replace(hour=25, ...)` raises
`ValueError` out of `_parse_deadline` (only the absolute branch guards its
construction), modelled as the `fault` outcome — contradicting the claim
that every input yields a timestamp or "unparseable".  Invalid calendar
values in the absolute format are indeed suppressed to unparseable. -/
theorem C4_parser_fault_evaluation :
    parseDeadline "today 25:00".toList ⟨2026, 1, 15, 10, 0, 0, 0⟩ = .fault
    ∧ parseDeadline "today 18:75".toList ⟨2026, 1, 15, 10, 0, 0, 0⟩ = .fault
    ∧ parseDeadline "32.01.2026 10:00".toList ⟨2026, 1, 15, 10, 0, 0, 0⟩
        = .unparseable := by
  exact ⟨rfl, rfl, rfl⟩

/-- C5: the pending-action slot is last-writer-wins (recording a pending
action ignores whatever was there) and consumed at most once: after a set,
the next free-text message (a registered user's non-keyboard message whose
target task loads) pops the slot, and a further message with no intervening
set finds no pending action and triggers no flow processing. -/
theorem C5_pending_overwrite_and_single_consumption
    (ud ud' : UserData) (store : List Task) (k i : List Char) (task : Task)
    (text text2 : List Char) (now now2 : DateTime) (fid fid2 uid uid2 : List Char)
    (hk : k ∈ taskKinds) (hi : i ≠ [])
    (hget : getById store i = some task)
    (hbtn : isKeyboardButton (pyStrip text) = false)
    (hbtn2 : isKeyboardButton (pyStrip text2) = false) :
    setPendingTask ud k i = setPendingTask ud' k i
    ∧ (handleMessage store (setPendingTask ud k i) true text now fid uid).userData
        = ⟨none, none⟩
    ∧ handleMessage
        (handleMessage store (setPendingTask ud k i) true text now fid uid).store
        (handleMessage store (setPendingTask ud k i) true text now fid uid).userData
        true text2 now2 fid2 uid2
      = ⟨(handleMessage store (setPendingTask ud k i) true text now fid uid).store,
          (handleMessage store (setPendingTask ud k i) true text now fid uid).userData,
          []⟩ := by
  have h1 := handleMessage_taskKind store k i task text now fid uid hk hi hget hbtn
  refine ⟨rfl, ?_, ?_⟩
  · rw [show setPendingTask ud k i = (⟨some k, some i⟩ : UserData) from rfl, h1]
  · rw [show setPendingTask ud k i = (⟨some k, some i⟩ : UserData) from rfl, h1]
    exact handleMessage_noPending _ text2 now2 fid2 uid2 hbtn2

theorem C5_pending_overwrite_and_single_consumption_witness :
    setPendingTask ⟨none, none⟩ "set_deadline".toList "t1".toList
        = setPendingTask ⟨some "add_tags".toList, some "zz".toList⟩
            "set_deadline".toList "t1".toList
    ∧ (handleMessage
        [⟨"t1".toList, "u1".toList, "Buy milk".toList, [], .assignment, .todo,
          .medium, none, []⟩]
        (setPendingTask ⟨none, none⟩ "set_deadline".toList "t1".toList) true
        "tomorrow 09:00".toList ⟨2026, 1, 15, 10, 0, 0, 0⟩ "f1".toList
        "u1".toList).userData = ⟨none, none⟩ := by
  have h := C5_pending_overwrite_and_single_consumption
    ⟨none, none⟩ ⟨some "add_tags".toList, some "zz".toList⟩
    [⟨"t1".toList, "u1".toList, "Buy milk".toList, [], .assignment, .todo,
      .medium, none, []⟩]
    "set_deadline".toList "t1".toList
    ⟨"t1".toList, "u1".toList, "Buy milk".toList, [], .assignment, .todo,
      .medium, none, []⟩
    "tomorrow 09:00".toList "hello".toList ⟨2026, 1, 15, 10, 0, 0, 0⟩
    ⟨2026, 1, 15, 10, 0, 0, 0⟩ "f1".toList "f2".toList "u1".toList "u1".toList
    (by decide) (by decide) (by decide) (by decide) (by decide)
  exact ⟨h.1, h.2.1⟩

theorem processPending_setDeadline_unparseable (store : List Task)
    (task : Task) (text : List Char) (now : DateTime)
    (h : parseDeadline text now = .unparseable) :
    processPending store task "set_deadline".toList text now
      = (store, [.invalidDeadlineFormat]) := by
  unfold processPending
  rw [if_pos rfl, h]

theorem processPending_editDeadline_unparseable (store : List Task)
    (task : Task) (text : List Char) (now : DateTime)
    (h : parseDeadline text now = .unparseable) :
    processPending store task "edit_deadline".toList text now
      = (store, [.invalidDeadlineFormat]) := by
  unfold processPending
  rw [if_neg (by decide), if_neg (by decide), if_neg (by decide),
    if_neg (by decide), if_pos rfl, h]

theorem processPending_addTags_empty (store : List Task) (task : Task)
    (text : List Char) (now : DateTime) (h : tokenizeTags text = []) :
    processPending store task "add_tags".toList text now
      = (store, [.noValidTags]) := by
  unfold processPending
  rw [if_neg (by decide), if_pos rfl, if_pos h]

theorem processPending_editTags_empty (store : List Task) (task : Task)
    (text : List Char) (now : DateTime) (h : tokenizeTags text = []) :
    processPending store task "edit_tags".toList text now
      = (store, [.noValidTags]) := by
  unfold processPending
  rw [if_neg (by decide), if_neg (by decide), if_neg (by decide),
    if_neg (by decide), if_neg (by decide), if_pos rfl, if_pos h]

/-- C6 counterexample: a registered user is awaiting a deadline for the
existing task `t1` and sends unparseable text.  The router does re-prompt
and leaves the store alone, but `handle_message` then pops both
`user_data` keys unconditionally (lines 995-997), so the pending action is
gone — contradicting the claim that the state remains `awaiting_*` and the
next message retries the flow. -/
theorem C6_counterexample :
    handleMessage
      [⟨"t1".toList, "u1".toList, "Buy milk".toList, [], .assignment, .todo,
        .medium, none, []⟩]
      (setPendingTask ⟨none, none⟩ "set_deadline".toList "t1".toList) true
      "garbage".toList ⟨2026, 1, 15, 10, 0, 0, 0⟩ "f1".toList "u1".toList
      = ⟨[⟨"t1".toList, "u1".toList, "Buy milk".toList, [], .assignment, .todo,
          .medium, none, []⟩], ⟨none, none⟩, [.invalidDeadlineFormat]⟩
    ∧ ¬ ((handleMessage
      [⟨"t1".toList, "u1".toList, "Buy milk".toList, [], .assignment, .todo,
        .medium, none, []⟩]
      (setPendingTask ⟨none, none⟩ "set_deadline".toList "t1".toList) true
      "garbage".toList ⟨2026, 1, 15, 10, 0, 0, 0⟩ "f1".toList
      "u1".toList).userData.pendingAction = some "set_deadline".toList) := by
  decide

/-- C6 amended: when the free-text input of an awaiting deadline/tags flow
fails to parse, the router re-prompts with format hints and no task
mutation occurs, but the pending action is cleared rather than retained
(both `user_data` keys are popped), so the user's next message does not
retry the flow. -/
theorem C6_amended_parse_failure_reprompts_but_clears
    (ud0 : UserData) (store : List Task) (i : List Char) (task : Task)
    (textD textT : List Char) (now : DateTime) (fid uid : List Char)
    (hi : i ≠ [])
    (hget : getById store i = some task)
    (hbtnD : isKeyboardButton (pyStrip textD) = false)
    (hbtnT : isKeyboardButton (pyStrip textT) = false)
    (hparse : parseDeadline textD now = .unparseable)
    (htags : tokenizeTags textT = []) :
    handleMessage store (setPendingTask ud0 "set_deadline".toList i) true
        textD now fid uid = ⟨store, ⟨none, none⟩, [.invalidDeadlineFormat]⟩
    ∧ handleMessage store (setPendingTask ud0 "edit_deadline".toList i) true
        textD now fid uid = ⟨store, ⟨none, none⟩, [.invalidDeadlineFormat]⟩
    ∧ handleMessage store (setPendingTask ud0 "add_tags".toList i) true
        textT now fid uid = ⟨store, ⟨none, none⟩, [.noValidTags]⟩
    ∧ handleMessage store (setPendingTask ud0 "edit_tags".toList i) true
        textT now fid uid = ⟨store, ⟨none, none⟩, [.noValidTags]⟩ := by
  refine ⟨?_, ?_, ?_, ?_⟩
  · rw [show setPendingTask ud0 "set_deadline".toList i
        = (⟨some "set_deadline".toList, some i⟩ : UserData) from rfl,
      handleMessage_taskKind store _ i task textD now fid uid (by decide) hi
        hget hbtnD,
      processPending_setDeadline_unparseable store task textD now hparse]
  · rw [show setPendingTask ud0 "edit_deadline".toList i
        = (⟨some "edit_deadline".toList, some i⟩ : UserData) from rfl,
      handleMessage_taskKind store _ i task textD now fid uid (by decide) hi
        hget hbtnD,
      processPending_editDeadline_unparseable store task textD now hparse]
  · rw [show setPendingTask ud0 "add_tags".toList i
        = (⟨some "add_tags".toList, some i⟩ : UserData) from rfl,
      handleMessage_taskKind store _ i task textT now fid uid (by decide) hi
        hget hbtnT,
      processPending_addTags_empty store task textT now htags]
  · rw [show setPendingTask ud0 "edit_tags".toList i
        = (⟨some "edit_tags".toList, some i⟩ : UserData) from rfl,
      handleMessage_taskKind store _ i task textT now fid uid (by decide) hi
        hget hbtnT,
      processPending_editTags_empty store task textT now htags]

theorem C6_amended_parse_failure_reprompts_but_clears_witness :
    handleMessage
      [⟨"t2".toList, "u1".toList, "Read".toList, [], .assignment, .todo,
        .medium, none, []⟩]
      (setPendingTask ⟨none, none⟩ "edit_deadline".toList "t2".toList) true
      "whenever".toList ⟨2026, 1, 15, 10, 0, 0, 0⟩ "f1".toList "u1".toList
      = ⟨[⟨"t2".toList, "u1".toList, "Read".toList, [], .assignment, .todo,
          .medium, none, []⟩], ⟨none, none⟩, [.invalidDeadlineFormat]⟩ :=
  (C6_amended_parse_failure_reprompts_but_clears ⟨none, none⟩
    [⟨"t2".toList, "u1".toList, "Read".toList, [], .assignment, .todo,
      .medium, none, []⟩]
    "t2".toList
    ⟨"t2".toList, "u1".toList, "Read".toList, [], .assignment, .todo,
      .medium, none, []⟩
    "whenever".toList ",,,".toList ⟨2026, 1, 15, 10, 0, 0, 0⟩ "f1".toList
    "u1".toList (by decide) (by decide) (by decide) (by decide) (by decide)
    (by decide)).2.1

/-- C7 counterexample: a registered user is awaiting a deadline for task id
`ghost`, which is not in the store, and sends a follow-up.  The router
replies "task not found" and mutates nothing, but it returns before the
pops of lines 995-997, so the pending action is NOT cleared — contradicting
the claim that the state drops back to idle. -/
theorem C7_counterexample :
    handleMessage [] (setPendingTask ⟨none, none⟩ "set_deadline".toList
        "ghost".toList) true "tomorrow 09:00".toList
        ⟨2026, 1, 15, 10, 0, 0, 0⟩ "f1".toList "u1".toList
      = ⟨[], ⟨some "set_deadline".toList, some "ghost".toList⟩, [.taskNotFound]⟩
    ∧ ¬ ((handleMessage [] (setPendingTask ⟨none, none⟩ "set_deadline".toList
        "ghost".toList) true "tomorrow 09:00".toList
        ⟨2026, 1, 15, 10, 0, 0, 0⟩ "f1".toList
        "u1".toList).userData.pendingAction = none) := by
  decide

/-- C7 amended: for every task-scoped pending action, if loading the target
task fails the router replies "task not found" and performs no mutation,
but the per-user state does not drop back to idle: the pending action (and
its target id) survive untouched. -/
theorem C7_amended_notFound_keeps_pending
    (ud0 : UserData) (store : List Task) (k i text : List Char)
    (now : DateTime) (fid uid : List Char)
    (hk : k ∈ taskKinds) (hi : i ≠ [])
    (hget : getById store i = none)
    (hbtn : isKeyboardButton (pyStrip text) = false) :
    handleMessage store (setPendingTask ud0 k i) true text now fid uid
      = ⟨store, setPendingTask ud0 k i, [.taskNotFound]⟩ :=
  handleMessage_taskKind_notFound store k i text now fid uid hk hi hget hbtn

theorem C7_amended_notFound_keeps_pending_witness :
    handleMessage
      [⟨"t9".toList, "u1".toList, "Call".toList, [], .assignment, .todo,
        .medium, none, []⟩]
      (setPendingTask ⟨none, none⟩ "edit_tags".toList "nope".toList) true
      "tag1 tag2".toList ⟨2026, 1, 15, 10, 0, 0, 0⟩ "f1".toList "u1".toList
      = ⟨[⟨"t9".toList, "u1".toList, "Call".toList, [], .assignment, .todo,
          .medium, none, []⟩],
          setPendingTask ⟨none, none⟩ "edit_tags".toList "nope".toList,
          [.taskNotFound]⟩ :=
  C7_amended_notFound_keeps_pending ⟨none, none⟩
    [⟨"t9".toList, "u1".toList, "Call".toList, [], .assignment, .todo,
      .medium, none, []⟩]
    "edit_tags".toList "nope".toList "tag1 tag2".toList
    ⟨2026, 1, 15, 10, 0, 0, 0⟩ "f1".toList "u1".toList
    (by decide) (by decide) (by decide) (by decide)

/-- C8: the code evaluated at the failing input.  Task `t1` belongs to user
`bob`; the inbound button press comes from a different, registered sender
(the model's `handleCallback` does not even take a sender identity, because
`handle_callback_query`, `_process_set_priority` and `_process_delete_task`
never compare the task's owner with the sender — the repository is called
directly, bypassing the ownership checks of the unused Update/Delete use
cases).  A `confirmdelete_t1` press deletes bob's task and a
`priority_high_t1` press mutates its priority (the latter even for an
unregistered sender), refuting the claimed silent refusal. -/
theorem C8_no_ownership_check_evaluation :
    handleCallback
      [⟨"t1".toList, "bob".toList, "Pay rent".toList, [], .assignment, .todo,
        .medium, none, []⟩]
      ⟨none, none⟩ true "confirmdelete_t1".toList
      = ⟨[], ⟨none, none⟩, [.taskDeleted]⟩
    ∧ handleCallback
      [⟨"t1".toList, "bob".toList, "Pay rent".toList, [], .assignment, .todo,
        .medium, none, []⟩]
      ⟨none, none⟩ false "priority_high_t1".toList
      = ⟨[⟨"t1".toList, "bob".toList, "Pay rent".toList, [], .assignment,
          .todo, .high, none, []⟩], ⟨none, none⟩, [.prioritySet .high]⟩ := by
  decide

/-- C9: pressing a priority button whose payload names an existing task is
a complete single-event transition: the task's priority is set to the
selected value in the store, exactly one reply is produced, the per-user
pending-action state is passed through untouched, and no other field of the
task record changes. -/
theorem C9_priority_button_single_event
    (store : List Task) (ud : UserData) (ue : Bool) (value tid : List Char)
    (task : Task)
    (hv : value ∈ priorityValues)
    (hget : getById store tid = some task) :
    handleCallback store ud ue ("priority_".toList ++ value ++ '_' :: tid)
      = ⟨updateTask store { task with priority := priorityOfValue value }, ud,
          [.prioritySet (priorityOfValue value)]⟩
    ∧ ({ task with priority := priorityOfValue value }.id = task.id
      ∧ { task with priority := priorityOfValue value }.userId = task.userId
      ∧ { task with priority := priorityOfValue value }.title = task.title
      ∧ { task with priority := priorityOfValue value }.description
          = task.description
      ∧ { task with priority := priorityOfValue value }.type = task.type
      ∧ { task with priority := priorityOfValue value }.status = task.status
      ∧ { task with priority := priorityOfValue value }.deadline = task.deadline
      ∧ { task with priority := priorityOfValue value }.tags = task.tags) := by
  have hsep : '_' ∉ value := by fin_cases hv <;> decide
  exact ⟨handleCallback_priority store ud ue value tid task hsep hget,
    rfl, rfl, rfl, rfl, rfl, rfl, rfl, rfl⟩

theorem C9_priority_button_single_event_witness :
    handleCallback
      [⟨"xyz".toList, "u1".toList, "Essay".toList, [], .assignment, .todo,
        .low, none, []⟩]
      ⟨some "set_deadline".toList, some "xyz".toList⟩ true
      ("priority_".toList ++ "high".toList ++ '_' :: "xyz".toList)
      = ⟨updateTask
          [⟨"xyz".toList, "u1".toList, "Essay".toList, [], .assignment, .todo,
            .low, none, []⟩]
          { (⟨"xyz".toList, "u1".toList, "Essay".toList, [], .assignment,
              .todo, .low, none, []⟩ : Task) with
            priority := priorityOfValue "high".toList },
          ⟨some "set_deadline".toList, some "xyz".toList⟩,
          [.prioritySet (priorityOfValue "high".toList)]⟩ :=
  (C9_priority_button_single_event
    [⟨"xyz".toList, "u1".toList, "Essay".toList, [], .assignment, .todo,
      .low, none, []⟩]
    ⟨some "set_deadline".toList, some "xyz".toList⟩ true "high".toList
    "xyz".toList
    ⟨"xyz".toList, "u1".toList, "Essay".toList, [], .assignment, .todo,
      .low, none, []⟩
    (by decide) (by decide)).1

set_option maxRecDepth 20000 in
/-- C10: the create-task use case rejects a whitespace-only title, a title
longer than 200 characters, and a deadline not strictly in the future,
raising a validation error before the repository is called, so no task is
stored; in the `/add_task <title>` chat flow the raise is caught and
surfaces as a generic error reply. -/
theorem C10_create_validation_limits (store : List Task)
    (uid title : List Char) (deadline : Option DateTime) (now : DateTime)
    (fid : List Char) (ud : UserData)
    (h : pyStrip title = [] ∨ 200 < title.length
      ∨ (∃ d, deadline = some d ∧ dtLe d now = true)) :
    (createTaskExec store uid title deadline now fid).1 = store
    ∧ (createTaskExec store uid title deadline now fid).2.isSome = true
    ∧ handleAddTask store ud ("/add_task ".toList ++ List.replicate 201 'x')
        now fid uid = ⟨store, ud, [.genericError]⟩ := by
  have key : ∃ e, createTaskUC uid title deadline now fid = .error e := by
    unfold createTaskUC
    by_cases h0 : title = []
    · exact ⟨_, by rw [if_pos h0]⟩
    rw [if_neg h0]
    by_cases h1 : pyStrip title = []
    · exact ⟨_, by rw [if_pos h1]⟩
    rw [if_neg h1]
    cases deadline with
    | none =>
      dsimp only
      rw [if_neg (fun hx : false = true => Bool.noConfusion hx)]
      have h3 : 200 < title.length := by
        rcases h with h | h | ⟨d, hd, -⟩
        · exact absurd h h1
        · exact h
        · exact Option.noConfusion hd
      exact ⟨_, by rw [if_pos h3]⟩
    | some d =>
      dsimp only
      by_cases h2 : dtLe d now = true
      · exact ⟨_, by rw [if_pos h2]⟩
      rw [if_neg h2]
      have h3 : 200 < title.length := by
        rcases h with h | h | ⟨d', hd', hle⟩
        · exact absurd h h1
        · exact h
        · injection hd' with hdd
          exact absurd (hdd ▸ hle) h2
      exact ⟨_, by rw [if_pos h3]⟩
  obtain ⟨e, he⟩ := key
  refine ⟨?_, ?_, ?_⟩
  · unfold createTaskExec
    rw [he]
  · unfold createTaskExec
    rw [he]
    rfl
  · have e1 : pyStrip ("/add_task ".toList ++ List.replicate 201 'x')
        = "/add_task ".toList ++ List.replicate 201 'x' := by decide
    have e2 : List.isPrefixOf "/add_task".toList
        ("/add_task ".toList ++ List.replicate 201 'x') = true := by decide
    have e3 : splitFirstSpace ("/add_task ".toList ++ List.replicate 201 'x')
        = some ("/add_task".toList, List.replicate 201 'x') := by decide
    have e4 : pyStrip (List.replicate 201 'x') = List.replicate 201 'x' := by
      decide
    have e5 : createTaskUC uid (List.replicate 201 'x') none now fid
        = .error .titleTooLong := by
      unfold createTaskUC
      rw [if_neg (by decide : ¬ (List.replicate 201 'x' = [])),
        if_neg (by decide : ¬ (pyStrip (List.replicate 201 'x') = []))]
      dsimp only
      rw [if_neg (fun hx : false = true => Bool.noConfusion hx),
        if_pos (by decide : 200 < (List.replicate 201 'x').length)]
    unfold handleAddTask
    rw [e1, if_pos e2, e3]
    dsimp only
    rw [e4, if_pos (by decide : List.replicate 201 'x' ≠ [])]
    unfold createTaskExec
    rw [e5]

set_option maxRecDepth 20000 in
theorem C10_create_validation_limits_witness :
    (createTaskExec [] "u1".toList "   ".toList none
        ⟨2026, 1, 15, 10, 0, 0, 0⟩ "f1".toList).1 = []
    ∧ (createTaskExec [] "u1".toList "   ".toList none
        ⟨2026, 1, 15, 10, 0, 0, 0⟩ "f1".toList).2.isSome = true
    ∧ handleAddTask [] ⟨none, none⟩
        ("/add_task ".toList ++ List.replicate 201 'x')
        ⟨2026, 1, 15, 10, 0, 0, 0⟩ "f1".toList "u1".toList
      = ⟨[], ⟨none, none⟩, [.genericError]⟩ :=
  C10_create_validation_limits [] "u1".toList "   ".toList none
    ⟨2026, 1, 15, 10, 0, 0, 0⟩ "f1".toList ⟨none, none⟩
    (Or.inl (by decide))

end TaskBot
